import Mathlib

/-!
Shallow embedding of the `sentinel-guard` repository (policy-driven runtime
sink guard) and proofs about its validator engine, policy loader, sink
enforcement pipeline, taint model and flow tracker.

Source files embedded:
  * `src/sentinel/validators.py` (`_normalize_text`, `_validate_string`,
    `_validate_path`, `_validate_json`, `validate_value`)
  * `src/sentinel/policy.py` (dataclasses, `_parse_validators`,
    `_parse_sinks`, `load_policy`, `Policy.get_sink_for_function`)
  * `src/sentinel/sinks.py` (`_record_flowpoint`, `_enforce`, guarded
    wrappers, `GuardedCursor.execute` / `executemany`)
  * `src/sentinel/taint.py` (`TaintedStr.__add__`, `_coerce`)

Modelling conventions: Python strings are Lean `String` (length counts code
points, as in CPython); Python dicts used as policy documents are
association lists with dict `get` semantics; Python exceptions are the
`PyError` type threaded through `Except`; external engines (the `re` module,
Unicode NFC normalization via `unicodedata`, the `jsonschema` library and the
filesystem behind it) are parameters of the embedding, packaged in `Env`.
Filesystem path resolution (`pathlib.Path.resolve`) is modelled lexically on
a symlink-free filesystem, with the CPython failure case of an embedded null
byte raising `ValueError`.
-/

namespace Sentinel

/-- Single-quote character (Python `repr` quoting), kept out of string
literals. -/
def sq : String := String.mk [Char.ofNat 39]

/-- Python `repr` of a string, as used by f-string `{x!r}` interpolation.
Escape sequences inside the string are not modelled; policy strings in the
claims contain none. -/
def pyRepr (s : String) : String := sq ++ s ++ sq

/-- ASCII-wise lowercasing of a string (`str.lower()` on the mode strings
that reach it), structural over the character list. -/
def lowerStr (s : String) : String := String.mk (s.data.map Char.toLower)

/-- Python runtime exceptions that the embedded code can raise. -/
inductive PyError where
  | attributeError (msg : String)
  | typeError (msg : String)
  | valueError (msg : String)
deriving DecidableEq, Repr

/-- Rendering of an exception by `str(e)`, used in `path invalid: {e}`. -/
def PyError.render : PyError → String
  | .attributeError m => m
  | .typeError m => m
  | .valueError m => m

/-- Python values that appear inside policy documents and `params` dicts. -/
inductive PValue where
  | none
  | int (n : Int)
  | str (s : String)
  | bool (b : Bool)
  | list (xs : List PValue)

/-- Python truthiness of a value (`if x:`). -/
def PValue.truthy : PValue → Bool
  | .none => false
  | .int n => n != 0
  | .str s => s != ""
  | .bool b => b
  | .list xs => !xs.isEmpty

/-- Python `x is None`. -/
def PValue.isNone : PValue → Bool
  | .none => true
  | _ => false

/-- Python `int(x)` conversion, raising `TypeError`/`ValueError` when the
value is not an integer-like. -/
def PValue.toInt : PValue → Except PyError Int
  | .int n => .ok n
  | .bool b => .ok (if b then 1 else 0)
  | .str s =>
    match s.toInt? with
    | some n => .ok n
    | Option.none => .error (.valueError ("invalid literal for int: " ++ pyRepr s))
  | .none => .error (.typeError "int argument must not be None")
  | .list _ => .error (.typeError "int argument must not be a list")

/-- Python `str(x)` for the values that reach it in the embedded code. -/
def PValue.toStr : PValue → String
  | .none => "None"
  | .int n => toString n
  | .str s => s
  | .bool b => if b then "True" else "False"
  | .list _ => "[...]"

/-- Python `repr` for list rendering in f-strings (`f"{must_be_under}"`). -/
def PValue.reprPy : PValue → String
  | .none => "None"
  | .int n => toString n
  | .str s => pyRepr s
  | .bool b => if b then "True" else "False"
  | .list _ => "[...]"

/-- Rendering of a Python list by an f-string, e.g. `['a', 'b']`. -/
def renderPVList (xs : List PValue) : String :=
  "[" ++ String.intercalate ", " (xs.map PValue.reprPy) ++ "]"

/-- Lookup in a dict, as `d[k]`-with-default-`None`: `d.get(k)`. -/
def dget (d : List (String × PValue)) (k : String) : PValue :=
  match d.find? (fun kv => kv.1 == k) with
  | some kv => kv.2
  | Option.none => .none

/-- Lookup in a dict with an explicit default: `d.get(k, dflt)`. -/
def dgetD (d : List (String × PValue)) (k : String) (dflt : PValue) : PValue :=
  match d.find? (fun kv => kv.1 == k) with
  | some kv => kv.2
  | Option.none => dflt

/-- Dict insertion `d[k] = v` (replace an existing key, else append),
matching Python dict insertion-order semantics. -/
def aset {α : Type} : List (String × α) → String → α → List (String × α)
  | [], k, v => [(k, v)]
  | (k', v') :: rest, k, v =>
    if k' == k then (k, v) :: rest else (k', v') :: aset rest k v

/-- Typed string-validator params built by `_parse_validators` for
`type: string` (dataclass `StringValidatorParams`).  Fields hold the raw
document values, as the dataclass constructor stores them. -/
structure StringValidatorParams where
  max_len : PValue
  min_len : PValue
  match_regex : PValue
  allow_charset : PValue
  deny_regex : PValue
  deny_substrings : PValue

/-- Typed path-validator params (dataclass `PathValidatorParams`);
`deny_subdirectories` is coerced with `bool(...)` by the parser. -/
structure PathValidatorParams where
  allowed_roots : PValue
  deny_subdirectories : Bool

/-- Typed json-schema-validator params (dataclass
`JsonSchemaValidatorParams`). -/
structure JsonSchemaValidatorParams where
  schema_ref : PValue

/-- The runtime `params` object handed to the validator functions: either a
plain dict (the shape `_validate_string` / `_validate_path` /
`_validate_json` are written against) or one of the typed dataclass
variants that `_parse_validators` actually produces. -/
inductive Params where
  | dict (entries : List (String × PValue))
  | stringP (p : StringValidatorParams)
  | pathP (p : PathValidatorParams)
  | jsonP (p : JsonSchemaValidatorParams)

/-- The attribute access `params.get(key)`: succeeds on a dict, raises
`AttributeError` on a dataclass instance (dataclasses have no `get`). -/
def Params.get : Params → String → Except PyError PValue
  | .dict entries, k => .ok (dget entries k)
  | .stringP _, _ =>
    .error (.attributeError
      (pyRepr "StringValidatorParams" ++ " object has no attribute " ++ pyRepr "get"))
  | .pathP _, _ =>
    .error (.attributeError
      (pyRepr "PathValidatorParams" ++ " object has no attribute " ++ pyRepr "get"))
  | .jsonP _, _ =>
    .error (.attributeError
      (pyRepr "JsonSchemaValidatorParams" ++ " object has no attribute " ++ pyRepr "get"))

/-- The attribute access `params.get(key, dflt)` with an explicit default. -/
def Params.getD : Params → String → PValue → Except PyError PValue
  | .dict entries, k, dflt => .ok (dgetD entries k dflt)
  | p, k, _ => p.get k

/-- Abstract interface to the Python `re` module: `re.search` (substring
search) and `re.fullmatch` (anchored full match), each taking the pattern
then the subject string. -/
structure ReEngine where
  search : String → String → Bool
  fullmatch : String → String → Bool

/-- Boolean list-prefix test used to model component-boundary path
containment. -/
def lPre : List String → List String → Bool
  | [], _ => true
  | _ :: _, [] => false
  | a :: as', b :: bs => a == b && lPre as' bs

/-- Boolean prefix test on character lists. -/
def cPre : List Char → List Char → Bool
  | [], _ => true
  | _ :: _, [] => false
  | a :: as', b :: bs => a == b && cPre as' bs

/-- Boolean contiguous-subsequence test on character lists. -/
def cSub (needle : List Char) : List Char → Bool
  | [] => cPre needle []
  | l@(_ :: rest) => cPre needle l || cSub needle rest

/-- Python `sub in s` substring containment on strings. -/
def strContains (s sub : String) : Bool := cSub sub.data s.data

/-- Scan of `for sub in deny_substrings: if sub in s`, returning the first
offending substring; a non-string element would make `in` raise. -/
def denyScan (s : String) : List PValue → Except PyError (Option String)
  | [] => .ok Option.none
  | .str sub :: rest =>
    if strContains s sub then .ok (some sub) else denyScan s rest
  | _ :: _ => .error (.typeError "in requires string as left operand")

/-- Check 1 of `_validate_string`:
`if max_len is not None and len(s) > int(max_len)`. -/
def checkMax (s : String) (max_len : PValue) (k : Except PyError (Bool × String)) :
    Except PyError (Bool × String) :=
  if max_len.isNone then k
  else
    match max_len.toInt with
    | .error e => .error e
    | .ok m => if (s.length : Int) > m then .ok (false, "length>" ++ max_len.toStr) else k

/-- Check 2 of `_validate_string`:
`if min_len is not None and len(s) < int(min_len)`. -/
def checkMin (s : String) (min_len : PValue) (k : Except PyError (Bool × String)) :
    Except PyError (Bool × String) :=
  if min_len.isNone then k
  else
    match min_len.toInt with
    | .error e => .error e
    | .ok m => if (s.length : Int) < m then .ok (false, "length<" ++ min_len.toStr) else k

/-- Check 3 of `_validate_string`:
`if deny_regex and re.search(str(deny_regex), s)`. -/
def checkDenyRegex (re : ReEngine) (s : String) (deny_regex : PValue)
    (k : Except PyError (Bool × String)) : Except PyError (Bool × String) :=
  if deny_regex.truthy then
    if re.search deny_regex.toStr s then .ok (false, "matches forbidden pattern") else k
  else k

/-- Check 4 of `_validate_string`: the `deny_substrings` loop. -/
def checkDenySubs (s : String) (deny_substrings : PValue)
    (k : Except PyError (Bool × String)) : Except PyError (Bool × String) :=
  match deny_substrings with
  | .list xs =>
    match denyScan s xs with
    | .error e => .error e
    | .ok (some sub) => .ok (false, "contains forbidden substring " ++ pyRepr sub)
    | .ok Option.none => k
  | _ => .error (.typeError "deny_substrings is not iterable")

/-- Check 5 of `_validate_string`:
`if allow_charset: if re.fullmatch(f"^[{allow_charset}]+$", s) is None`. -/
def checkCharset (re : ReEngine) (s : String) (allow_charset : PValue)
    (k : Except PyError (Bool × String)) : Except PyError (Bool × String) :=
  if allow_charset.truthy then
    if re.fullmatch ("^[" ++ allow_charset.toStr ++ "]+$") s then k
    else .ok (false, "contains disallowed characters")
  else k

/-- Check 6 of `_validate_string`:
`if regex: if re.fullmatch(str(regex), s) is None`. -/
def checkRegex (re : ReEngine) (s : String) (regex : PValue)
    (k : Except PyError (Bool × String)) : Except PyError (Bool × String) :=
  if regex.truthy then
    if re.fullmatch regex.toStr s then k else .ok (false, "regex mismatch")
  else k

/-- Body of `_validate_string` after normalization: reads the six params
(in the source order of the `params.get` calls) and applies the six checks
in the source order. -/
def validateStringChecks (re : ReEngine) (params : Params) (s : String) :
    Except PyError (Bool × String) :=
  match params.get "max_len" with
  | .error e => .error e
  | .ok max_len =>
  match params.get "min_len" with
  | .error e => .error e
  | .ok min_len =>
  match params.get "regex" with
  | .error e => .error e
  | .ok regex =>
  match params.get "allow_charset" with
  | .error e => .error e
  | .ok allow_charset =>
  match params.get "deny_regex" with
  | .error e => .error e
  | .ok deny_regex =>
  match params.getD "deny_substrings" (.list []) with
  | .error e => .error e
  | .ok deny_substrings =>
    checkMax s max_len <|
    checkMin s min_len <|
    checkDenyRegex re s deny_regex <|
    checkDenySubs s deny_substrings <|
    checkCharset re s allow_charset <|
    checkRegex re s regex <|
    .ok (true, "ok")

/-- The function `_validate_string(value, params)`: coerce to `str`, apply
NFC normalization (`_normalize_text`), then run the checks.  The `nfc`
parameter is the external `unicodedata.normalize("NFC", ·)`. -/
def validateString (nfc : String → String) (re : ReEngine) (params : Params)
    (value : String) : Except PyError (Bool × String) :=
  validateStringChecks re params (nfc value)

/-- Path-separator split of a raw path string into components (empty
components from repeated slashes are dropped, as `pathlib` does). -/
def splitSlash (acc : List Char) : List Char → List String
  | [] => [String.mk acc.reverse]
  | ch :: rest =>
    if ch == Char.ofNat 47 then String.mk acc.reverse :: splitSlash [] rest
    else splitSlash (ch :: acc) rest

/-- Components of a raw path string. -/
def pathComponents (s : String) : List String :=
  (splitSlash [] s.data).filter (fun c => c != "")

/-- Lexical processing of `.` and `..` components against an accumulated
absolute component list, as `os.path.realpath` does on a symlink-free
filesystem. -/
def lexResolve (acc : List String) : List String → List String
  | [] => acc
  | c :: rest =>
    if c == "." then lexResolve acc rest
    else if c == ".." then lexResolve acc.dropLast rest
    else lexResolve (acc ++ [c]) rest

/-- Absoluteness test of a raw path: first character is the separator. -/
def startsSlash (s : String) : Bool :=
  match s.data with
  | c :: _ => c == Char.ofNat 47
  | [] => false

/-- The call `Path(str(value)).resolve()`: absolute, symlink-resolved form
of a path, modelled lexically over a symlink-free filesystem with the
working directory `cwd` (itself an absolute component list).  CPython
raises `ValueError` on an embedded null byte; that is the
resolution-failure case the source catches. -/
def resolvePath (cwd : List String) (s : String) : Except PyError (List String) :=
  if s.data.contains (Char.ofNat 0) then .error (.valueError "embedded null byte")
  else if startsSlash s then .ok (lexResolve [] (pathComponents s))
  else .ok (lexResolve cwd (pathComponents s))

/-- The `path.parent` of an absolute component list (the parent of the
root `/` is `/` itself). -/
def parentOf (p : List String) : List String := p.dropLast

/-- Rendering `str(PosixPath(...))` of an absolute component list. -/
def renderAbs (p : List String) : String := "/" ++ String.intercalate "/" p

/-- Loop body of `_validate_path`: try each root in order; a malformed or
non-string root is skipped (its `Path(root).resolve()` raises and the
`except` continues); the first root that `path.relative_to(root_path)`
accepts decides, applying the `deny_subdirectories` parent check; if no
root matches, reject naming the raw configured list. -/
def pathLoop (cwd : List String) (deny : Bool) (path : List String)
    (rawMsg : String) : List PValue → Bool × String
  | [] => (false, "path not under allowed roots: " ++ rawMsg)
  | r :: rest =>
    match r with
    | .str rs =>
      match resolvePath cwd rs with
      | .error _ => pathLoop cwd deny path rawMsg rest
      | .ok rootPath =>
        if lPre rootPath path then
          if deny && parentOf path != rootPath then
            (false, "subdirectories disallowed under " ++ renderAbs rootPath)
          else (true, "ok")
        else pathLoop cwd deny path rawMsg rest
    | _ => pathLoop cwd deny path rawMsg rest

/-- The function `_validate_path(value, params)`: read
`params.get("must_be_under", [])` and
`bool(params.get("deny_subdirectories", False))`, resolve the input path
(converting a resolution failure into a rejection), reject when the raw
configured list is falsy, then run the root loop. -/
def validatePath (cwd : List String) (params : Params) (value : String) :
    Except PyError (Bool × String) :=
  match params.getD "must_be_under" (.list []) with
  | .error e => .error e
  | .ok mbu =>
  match params.getD "deny_subdirectories" (.bool false) with
  | .error e => .error e
  | .ok dsv =>
    let deny := dsv.truthy
    match resolvePath cwd value with
    | .error e => .ok (false, "path invalid: " ++ e.render)
    | .ok path =>
      if mbu.truthy then
        match mbu with
        | .list roots => .ok (pathLoop cwd deny path (renderPVList roots) roots)
        | _ => .error (.typeError "must_be_under is not iterable")
      else .ok (false, "no allowed roots configured")

/-- The function `_validate_json(obj, params)`: `params.get("schema_ref")`
is evaluated outside the `try`, so it can raise; a falsy ref is rejected;
schema loading plus Draft-7 validation (external `jsonschema` library and
filesystem) is the abstract `check`, whose failure the catch-all `except`
converts into a rejection. -/
def validateJson (check : String → String → Except String (Bool × String))
    (params : Params) (value : String) : Except PyError (Bool × String) :=
  match params.get "schema_ref" with
  | .error e => .error e
  | .ok ref =>
    if ref.truthy then
      match check ref.toStr value with
      | .error detail => .ok (false, "json schema load/validate error: " ++ detail)
      | .ok r => .ok r
    else .ok (false, "no schema_ref provided")

/-- External collaborators of the validator engine, packaged: NFC
normalization, the `re` module, the process working directory (for
`Path.resolve`) and the json-schema load-and-check pipeline. -/
structure Env where
  nfc : String → String
  re : ReEngine
  cwd : List String
  jsonCheck : String → String → Except String (Bool × String)

/-- The enum `ViolationMode`. -/
inductive ViolationMode where
  | block
  | warn
  | sanitize
deriving DecidableEq, Repr

/-- The enum constructor `ViolationMode(s)`, as a partial recognizer. -/
def ViolationMode.ofString? : String → Option ViolationMode
  | "block" => some .block
  | "warn" => some .warn
  | "sanitize" => some .sanitize
  | _ => Option.none

/-- The enum accessor `ViolationMode.value`. -/
def ViolationMode.value : ViolationMode → String
  | .block => "block"
  | .warn => "warn"
  | .sanitize => "sanitize"

/-- Dataclass `OnViolationDef`; `_parse_sinks` can construct it with
`mode=None` or `message=None`, hence both fields are optional. -/
structure OnViolationDef where
  mode : Option ViolationMode
  message : Option String
deriving DecidableEq, Repr

/-- Dataclass `ValidatorDef`. -/
structure ValidatorDef where
  id : String
  type : String
  params : Params

/-- Dataclass `SinkDef` as declared in `policy.py`: note there is no
`forbid_functions` field. -/
structure SinkDef where
  id : Option String
  function : Option String
  require : List String
  on_violation : Option OnViolationDef

/-- Dataclass `Policy`; `defaults.mode` is whatever the document carried
(possibly absent). Dicts are insertion-ordered association lists. -/
structure Policy where
  version : Int
  defaultsMode : Option String
  validators : List (String × ValidatorDef)
  sinks : List (String × SinkDef)

/-- Dict lookup `policy.validators.get(validator_id)`. -/
def lookupValidator (policy : Policy) (vid : String) : Option ValidatorDef :=
  (policy.validators.find? (fun kv => kv.1 == vid)).map (fun kv => kv.2)

/-- Method `Policy.get_sink_for_function`: first sink (in dict order) whose
`function` equals the fully-qualified name. -/
def getSinkForFunction (policy : Policy) (fqn : String) : Option SinkDef :=
  (policy.sinks.find? (fun kv => kv.2.function == some fqn)).map (fun kv => kv.2)

/-- The public API `validate_value(policy, validator_id, value)`: unknown
id is rejected; otherwise dispatch on the validator `type` string (the
`str(value)` coercions are identities here since sink-extracted values are
strings). -/
def validateValue (env : Env) (policy : Policy) (vid : String) (value : String) :
    Except PyError (Bool × String) :=
  match lookupValidator policy vid with
  | Option.none => .ok (false, "unknown validator " ++ vid)
  | some vdef =>
    if vdef.type == "string" then validateString env.nfc env.re vdef.params value
    else if vdef.type == "path" then validatePath env.cwd vdef.params value
    else if vdef.type == "json_schema" then validateJson env.jsonCheck vdef.params value
    else .ok (false, "unknown validator type " ++ vdef.type)

/-- Wire shape of one `validators:` entry of the YAML policy document
(`it` in `_parse_validators`): `id`, `type`, and the free-form `params`
mapping.  Keys the parser does not read are simply not read. -/
structure WireValidator where
  id : Option String
  type : Option String
  params : List (String × PValue)

/-- Wire shape of one `sinks:` entry of the YAML policy document (`item`
in `_parse_sinks`).  The `forbid_functions` key can appear in a document;
`_parse_sinks` contains no read of it, which this embedding mirrors by the
field being unused. -/
structure WireSink where
  id : Option String
  function : Option String
  require : List String
  on_violation : List (String × PValue)
  forbid_functions : List String

/-- Wire shape of the whole policy document as `load_policy` reads it. -/
structure WireDoc where
  version : Int
  defaultsMode : Option String
  validators : List WireValidator
  sinks : List WireSink

/-- Type-directed params construction inside `_parse_validators`. -/
def parseParams (vid vtype : String) (p : List (String × PValue)) :
    Except String Params :=
  if vtype == "string" then
    .ok (.stringP
      { max_len := dget p "max_len"
        min_len := dget p "min_len"
        match_regex := dget p "match_regex"
        allow_charset := dget p "allow_charset"
        deny_regex := dget p "deny_regex"
        deny_substrings := dgetD p "deny_substrings" (.list []) })
  else if vtype == "path" then
    .ok (.pathP
      { allowed_roots := dgetD p "allowed_roots" (.list [])
        deny_subdirectories := (dgetD p "deny_subdirectories" (.bool false)).truthy })
  else if vtype == "json_schema" then
    let sr := dget p "schema_ref"
    if sr.truthy then .ok (.jsonP { schema_ref := sr })
    else .error ("validator " ++ pyRepr vid ++ ": json_schema requires schema_ref")
  else .error ("validator " ++ pyRepr vid ++ ": unknown validator type " ++ pyRepr vtype)

/-- The loop of `_parse_validators`: build the validator dict in document
order, raising `ValueError` (modelled as `Except.error`) on a missing id or
type or a bad definition. -/
def parseValidatorsAux (acc : List (String × ValidatorDef)) :
    List WireValidator → Except String (List (String × ValidatorDef))
  | [] => .ok acc
  | it :: rest =>
    let vid := it.id.getD ""
    let vtype := it.type.getD ""
    if vid == "" || vtype == "" then .error "validator missing id or type"
    else
      match parseParams vid vtype it.params with
      | .error e => .error e
      | .ok params =>
        parseValidatorsAux (aset acc vid { id := vid, type := vtype, params := params }) rest

/-- The function `_parse_validators`. -/
def parseValidators (items : List WireValidator) :
    Except String (List (String × ValidatorDef)) :=
  parseValidatorsAux [] items

/-- The `on_violation` parsing inside `_parse_sinks`: an empty dict is
falsy and leaves `on_violation = None`; a truthy `mode` string must name a
`ViolationMode` (case-insensitively) or loading fails. -/
def parseOnViolation (sid : String) (d : List (String × PValue)) :
    Except String (Option OnViolationDef) :=
  if d.isEmpty then .ok Option.none
  else
    let modeStr := dget d "mode"
    let message :=
      match dget d "message" with
      | .none => Option.none
      | v => some v.toStr
    if modeStr.truthy then
      match ViolationMode.ofString? (lowerStr modeStr.toStr) with
      | some m => .ok (some { mode := some m, message := message })
      | Option.none =>
        .error ("sink " ++ pyRepr sid ++ ": invalid mode " ++ pyRepr modeStr.toStr)
    else .ok (some { mode := Option.none, message := message })

/-- The loop of `_parse_sinks`: build the sink dict in document order; the
constructed `SinkDef` carries only `id`, `function`, `require` and
`on_violation`. -/
def parseSinksAux (acc : List (String × SinkDef)) :
    List WireSink → Except String (List (String × SinkDef))
  | [] => .ok acc
  | item :: rest =>
    let sid := item.id.getD ""
    match parseOnViolation sid item.on_violation with
    | .error e => .error e
    | .ok ov =>
      parseSinksAux
        (aset acc sid
          { id := item.id
            function := item.function
            require := item.require
            on_violation := ov })
        rest

/-- The function `_parse_sinks`. -/
def parseSinks (items : List WireSink) : Except String (List (String × SinkDef)) :=
  parseSinksAux [] items

/-- The function `load_policy` applied to an already-read document (the
YAML file reader is an external collaborator). -/
def loadPolicyW (doc : WireDoc) : Except String Policy :=
  match parseValidators doc.validators with
  | .error e => .error e
  | .ok validators =>
    match parseSinks doc.sinks with
    | .error e => .error e
    | .ok sinks =>
      .ok { version := doc.version
            defaultsMode := doc.defaultsMode
            validators := validators
            sinks := sinks }

/-- The flow-stack append of `_record_flowpoint`: append unless the last
entry already equals the label. -/
def flowAppend (stack : List String) (name : String) : List String :=
  if stack = [] ∨ stack.getLast? ≠ some name then stack ++ [name] else stack

/-- Structured violation log record emitted by `_enforce` (the `ts` field,
wall-clock time, is outside the model). -/
structure LogRecord where
  event : String
  sink : String
  validator : Option String
  msg : String
  mode : String
  taint_flow : List String
deriving DecidableEq, Repr

/-- The default-mode computation of `_enforce`:
`ViolationMode((policy.defaults.mode or "block").lower())` with the
`except ValueError` fallback to `block`. -/
def defaultModeOf (policy : Policy) : ViolationMode :=
  let s :=
    match policy.defaultsMode with
    | some str => if str == "" then "block" else str
    | Option.none => "block"
  match ViolationMode.ofString? (lowerStr s) with
  | some m => m
  | Option.none => .block

/-- Effective mode of a violation in `_enforce`:
`sink.on_violation.mode` when both are truthy, else the default-mode
computation. -/
def effMode (policy : Policy) (sink : SinkDef) : ViolationMode :=
  match sink.on_violation with
  | some ov =>
    match ov.mode with
    | some m => m
    | Option.none => defaultModeOf policy
  | Option.none => defaultModeOf policy

/-- Effective message of a violation in `_enforce`:
`sink.on_violation.message` when both are truthy, else
`f"violation {vid}: {msg}"`. -/
def effMessage (sink : SinkDef) (vid msg : String) : String :=
  let dflt := "violation " ++ vid ++ ": " ++ msg
  match sink.on_violation with
  | some ov =>
    match ov.message with
    | some mm => if mm == "" then dflt else mm
    | Option.none => dflt
  | Option.none => dflt

/-- The `(vid, s)` iteration order of the nested loops
`for vid in sink.require: for s in strings:`. -/
def sinkPairs (require strings : List String) : List (String × String) :=
  require.flatMap (fun vid => strings.map (fun s => (vid, s)))

/-- The validator loop of `_enforce`: validate each pair in order; a
failure logs a violation record and, in `block` mode, raises
`PolicyViolation` with the effective message (ending the loop); in
`warn`/`sanitize` mode the loop continues.  A `PyError` escaping
`validate_value` propagates out uncaught. -/
def enforcePairs (env : Env) (policy : Policy) (fqn : String) (sink : SinkDef)
    (flowSnap : List String) :
    List (String × String) → List LogRecord →
    Except PyError (List LogRecord × Option String)
  | [], logs => .ok (logs, Option.none)
  | (vid, s) :: rest, logs =>
    match validateValue env policy vid s with
    | .error e => .error e
    | .ok (ok, msg) =>
      if ok then enforcePairs env policy fqn sink flowSnap rest logs
      else
        let mode := effMode policy sink
        let message := effMessage sink vid msg
        let lrec : LogRecord :=
          { event := "violation", sink := fqn, validator := some vid
            msg := msg, mode := mode.value, taint_flow := flowSnap }
        if mode = ViolationMode.block then .ok (logs ++ [lrec], some message)
        else enforcePairs env policy fqn sink flowSnap rest (logs ++ [lrec])

/-- Observable outcome of one `_enforce` call: the flow stack after the
`_record_flowpoint`, the emitted log records, and the `PolicyViolation`
message when one was raised. -/
structure EnforceOut where
  flow : List String
  logs : List LogRecord
  raised : Option String
deriving DecidableEq, Repr

/-- The function `_enforce(policy, sink_fqn, strings)` with the
request-scoped flow stack made explicit. -/
def enforce (env : Env) (policy : Policy) (fqn : String) (strings : List String)
    (flow0 : List String) : Except PyError EnforceOut :=
  let flow := flowAppend flow0 fqn
  match getSinkForFunction policy fqn with
  | Option.none => .ok { flow := flow, logs := [], raised := Option.none }
  | some sink =>
    match enforcePairs env policy fqn sink flow (sinkPairs sink.require strings) [] with
    | .error e => .error e
    | .ok (logs, raised) => .ok { flow := flow, logs := logs, raised := raised }

/-- Outcome of a guarded sink invocation: the underlying operation ran and
returned (with the session's log records and flow stack), a
`PolicyViolation` was raised, or a Python error escaped the guard. -/
inductive CallOutcome (α : Type) where
  | ok (result : α) (logs : List LogRecord) (flow : List String)
  | violation (message : String) (logs : List LogRecord) (flow : List String)
  | pyerror (e : PyError)
deriving DecidableEq, Repr

/-- Shape shared by all guarded wrappers in `apply_patches`: run
`_enforce` on the extracted strings, then delegate to the original
callable (whose result is `underlying`). -/
def guardedCall {α : Type} (env : Env) (policy : Policy) (fqn : String)
    (strings : List String) (flow0 : List String) (underlying : α) : CallOutcome α :=
  match enforce env policy fqn strings flow0 with
  | .error e => .pyerror e
  | .ok out =>
    match out.raised with
    | some m => .violation m out.logs out.flow
    | Option.none => .ok underlying out.logs out.flow

/-- Method `GuardedCursor.execute`: `_enforce(policy,
"sqlite3.Cursor.execute", [str(sql)])` then delegate. -/
def guardedExecute {α : Type} (env : Env) (policy : Policy) (sql : String)
    (flow0 : List String) (underlying : α) : CallOutcome α :=
  guardedCall env policy "sqlite3.Cursor.execute" [sql] flow0 underlying

/-- Method `GuardedCursor.executemany`: `_enforce(policy,
"sqlite3.Cursor.executemany", [str(sql)])` then delegate. -/
def guardedExecutemany {α : Type} (env : Env) (policy : Policy) (sql : String)
    (flow0 : List String) (underlying : α) : CallOutcome α :=
  guardedCall env policy "sqlite3.Cursor.executemany" [sql] flow0 underlying

/-- Class `TaintedStr`: a string value with a de-duplicated, unordered set
of taint tags. -/
structure TaintedStr where
  value : String
  tags : Finset String

/-- An operand of `TaintedStr.__add__`: another `TaintedStr`, or any plain
string-convertible value contributing its `str()` image and no tags. -/
inductive StrLike where
  | tainted (t : TaintedStr)
  | plain (s : String)

/-- String content of an operand (`str(other)`). -/
def StrLike.strOf : StrLike → String
  | .tainted t => t.value
  | .plain s => s

/-- Tag set of an operand (a plain value carries no tags). -/
def StrLike.tagsOf : StrLike → Finset String
  | .tainted t => t.tags
  | .plain _ => ∅

/-- Method `TaintedStr._coerce`: lift the operand to a `TaintedStr`,
giving a plain operand the left operand's tags. -/
def TaintedStr.coerce (self : TaintedStr) : StrLike → TaintedStr
  | .tainted o => { value := o.value, tags := self.tags ∪ o.tags }
  | .plain s => { value := s, tags := self.tags }

/-- Method `TaintedStr.__add__`: concatenate contents, union tags with the
coerced operand's tags. -/
def TaintedStr.add (self : TaintedStr) (other : StrLike) : TaintedStr :=
  let o := self.coerce other
  { value := self.value ++ o.value, tags := self.tags ∪ o.tags }

/-! Specification-side definitions, written from the claims' wording, to be
compared with the embedded code. -/

/-- Injection of an optional integer parameter into a params dict value. -/
def pvOfInt : Option Int → PValue
  | some n => .int n
  | Option.none => .none

/-- Injection of an optional string parameter into a params dict value. -/
def pvOfStr : Option String → PValue
  | some s => .str s
  | Option.none => .none

/-- Dict-shaped string-validator params carrying typed configuration, with
the key names `_validate_string` reads (the match-regex check reads the
`regex` key). -/
def mkStringDict (ml mn : Option Int) (rx ac dr : Option String) (ds : List String) :
    Params :=
  .dict [("max_len", pvOfInt ml), ("min_len", pvOfInt mn), ("regex", pvOfStr rx),
         ("allow_charset", pvOfStr ac), ("deny_regex", pvOfStr dr),
         ("deny_substrings", .list (ds.map .str))]

/-- Claim-side check 1: `max_len` (if set), counting code points of the
normalized string; fails with reason `length>N`. -/
def specMax (ml : Option Int) (s : String) : Option String :=
  match ml with
  | some n => if (s.length : Int) > n then some ("length>" ++ toString n) else Option.none
  | Option.none => Option.none

/-- Claim-side check 2: `min_len` (if set); fails with reason `length<N`. -/
def specMin (mn : Option Int) (s : String) : Option String :=
  match mn with
  | some n => if (s.length : Int) < n then some ("length<" ++ toString n) else Option.none
  | Option.none => Option.none

/-- Claim-side check 3: `deny_regex` (if set, i.e. truthy): substring
search must not match. -/
def specDenyRe (re : ReEngine) (dr : Option String) (s : String) : Option String :=
  match dr with
  | some r => if r != "" && re.search r s then some "matches forbidden pattern" else Option.none
  | Option.none => Option.none

/-- Claim-side check 4: first configured substring occurring in the
string. -/
def firstDenyHit (ds : List String) (s : String) : Option String :=
  ds.find? (fun sub => strContains s sub)

/-- Claim-side check 4's failure reason. -/
def specDenySubs (ds : List String) (s : String) : Option String :=
  (firstDenyHit ds s).map (fun sub => "contains forbidden substring " ++ pyRepr sub)

/-- Claim-side check 5: `allow_charset` (if set): anchored character-class
full match. -/
def specCharset (re : ReEngine) (ac : Option String) (s : String) : Option String :=
  match ac with
  | some c =>
    if c != "" && !(re.fullmatch ("^[" ++ c ++ "]+$") s) then
      some "contains disallowed characters"
    else Option.none
  | Option.none => Option.none

/-- Claim-side check 6: `match_regex` (if set): anchored full match, with
reason `regex mismatch`. -/
def specMatchRe (re : ReEngine) (rx : Option String) (s : String) : Option String :=
  match rx with
  | some r => if r != "" && !(re.fullmatch r s) then some "regex mismatch" else Option.none
  | Option.none => Option.none

/-- The claim's ordered check list for the string validator: `max_len`,
`min_len`, `deny_regex`, `deny_substrings`, `allow_charset`,
`match_regex`, each evaluated on the normalized string. -/
def specCheckList (re : ReEngine) (ml mn : Option Int) (rx ac dr : Option String)
    (ds : List String) (s : String) : List (Option String) :=
  [specMax ml s, specMin mn s, specDenyRe re dr s, specDenySubs ds s,
   specCharset re ac s, specMatchRe re rx s]

/-- First-failing-check semantics: the returned `(ok, reason)` is the
first failure's reason, else `(true, "ok")`. -/
def firstFailure (checks : List (Option String)) : Bool × String :=
  match checks.findSome? id with
  | some reason => (false, reason)
  | Option.none => (true, "ok")

/-- Chain form of an ordered check sequence over the success
continuation, used to relate the code's check chain to `firstFailure`. -/
def checkChain : List (Option String) → Except PyError (Bool × String)
  | [] => .ok (true, "ok")
  | c :: cs =>
    match c with
    | some reason => .ok (false, reason)
    | Option.none => checkChain cs

/-- Acceptance bit of a validator outcome. -/
def acceptedOf : Except PyError (Bool × String) → Bool
  | .ok (b, _) => b
  | .error _ => false

/-- Dict-shaped path-validator params with the key names `_validate_path`
reads. -/
def mkPathDict (roots : List PValue) (deny : Bool) : Params :=
  .dict [("must_be_under", .list roots), ("deny_subdirectories", .bool deny)]

/-- Claim-side root search: the first configured root (in list order,
skipping non-string or unresolvable entries) whose canonical form is an
ancestor of the canonical path at a component boundary (equality
included). -/
def firstMatchingRoot (cwd : List String) (path : List String) :
    List PValue → Option (List String)
  | [] => Option.none
  | .str rs :: rest =>
    match resolvePath cwd rs with
    | .ok rp => if lPre rp path then some rp else firstMatchingRoot cwd path rest
    | .error _ => firstMatchingRoot cwd path rest
  | _ :: rest => firstMatchingRoot cwd path rest

/-- Claim-side default mode: `policy.defaults.mode` if set, else `block`;
an unrecognized mode string falls back to `block` (recognition is
case-insensitive, as the enum constructor receives a lowercased string). -/
def specDefaults (policy : Policy) : ViolationMode :=
  match policy.defaultsMode with
  | some s =>
    if s == "" then .block
    else
      match ViolationMode.ofString? (lowerStr s) with
      | some m => m
      | Option.none => .block
  | Option.none => .block

/-- Claim-side effective mode: `sink.on_violation.mode` if set, else the
default cascade. -/
def effModeSpec (policy : Policy) (sink : SinkDef) : ViolationMode :=
  match sink.on_violation with
  | some ov =>
    match ov.mode with
    | some m => m
    | Option.none => specDefaults policy
  | Option.none => specDefaults policy

/-! Concrete fixtures used by witnesses and by the evaluation theorems. -/

/-- A concrete environment: identity normalization, a trivial regex engine
(`search` never matches, `fullmatch` always matches), a fixed working
directory, and a trivially-passing schema checker. -/
def wEnv : Env :=
  { nfc := id
    re := { search := fun _ _ => false, fullmatch := fun _ _ => true }
    cwd := ["home", "app"]
    jsonCheck := fun _ _ => .ok (true, "ok") }

/-- Policy document with a string validator shaped like the repository's
test fixture `safe_filename` (`load_policy` turns its params into the
`StringValidatorParams` dataclass). -/
def c1Doc : WireDoc :=
  { version := 1
    defaultsMode := some "block"
    validators := [
      { id := some "safe_filename", type := some "string"
        params := [("max_len", .int 128),
                   ("deny_substrings", .list [.str "../", .str "/"])] }]
    sinks := [
      { id := some "fs", function := some "builtins.open"
        require := ["safe_filename"], on_violation := [], forbid_functions := [] }] }

/-- Policy document whose only sink carries a `forbid_functions` list
naming its own function, per the spec's hard-deny feature. -/
def c3Doc : WireDoc :=
  { version := 1
    defaultsMode := some "block"
    validators := []
    sinks := [
      { id := some "sh", function := some "subprocess.run", require := []
        on_violation := [], forbid_functions := ["subprocess.run"] }] }

/-- Concrete policy for the enforcement witnesses: a length-1 string
validator and a sink on `sqlite3.Cursor.execute` requiring it, with no
per-sink override and no defaults mode. -/
def wPolicy : Policy :=
  { version := 1
    defaultsMode := Option.none
    validators := [("v1", { id := "v1", type := "string"
                            params := .dict [("max_len", .int 1)] })]
    sinks := [("s1", { id := some "s1", function := some "sqlite3.Cursor.execute"
                       require := ["v1"], on_violation := Option.none })] }

/-- Concrete policy for the unknown-validator witness: empty validator
dict, one sink on `f` requiring the nonexistent id `ghost`. -/
def wPolicyGhost : Policy :=
  { version := 1
    defaultsMode := Option.none
    validators := []
    sinks := [("s1", { id := some "s1", function := some "f"
                       require := ["ghost"], on_violation := Option.none })] }

/-- Concrete policy for the mode-dispatch witness: same validator as
`wPolicy` but the sink overrides the mode to `warn`. -/
def wPolicyWarn : Policy :=
  { version := 1
    defaultsMode := Option.none
    validators := [("v1", { id := "v1", type := "string"
                            params := .dict [("max_len", .int 1)] })]
    sinks := [("s1", { id := some "s1", function := some "f"
                       require := ["v1"]
                       on_violation := some { mode := some ViolationMode.warn
                                              message := Option.none } })] }

/-! Helper lemmas. -/

/-- A check chain computes the first-failing-check result. -/
theorem checkChain_eq (cs : List (Option String)) :
    checkChain cs = .ok (firstFailure cs) := by
  induction cs with
  | nil => rfl
  | cons c cs ih =>
    cases c with
    | none => exact ih
    | some r => rfl

/-- The `max_len` check is the head of a check chain. -/
theorem checkMax_chain (s : String) (ml : Option Int) (cs : List (Option String)) :
    checkMax s (pvOfInt ml) (checkChain cs) = checkChain (specMax ml s :: cs) := by
  cases ml with
  | none => rfl
  | some n =>
    by_cases hc : (s.length : Int) > n <;>
      simp [checkMax, pvOfInt, PValue.isNone, PValue.toInt, PValue.toStr, specMax,
        checkChain, hc]

/-- The `min_len` check is the next link of a check chain. -/
theorem checkMin_chain (s : String) (mn : Option Int) (cs : List (Option String)) :
    checkMin s (pvOfInt mn) (checkChain cs) = checkChain (specMin mn s :: cs) := by
  cases mn with
  | none => rfl
  | some n =>
    by_cases hc : (s.length : Int) < n <;>
      simp [checkMin, pvOfInt, PValue.isNone, PValue.toInt, PValue.toStr, specMin,
        checkChain, hc]

/-- The `deny_regex` check is the next link of a check chain. -/
theorem checkDenyRe_chain (re : ReEngine) (s : String) (dr : Option String)
    (cs : List (Option String)) :
    checkDenyRegex re s (pvOfStr dr) (checkChain cs)
      = checkChain (specDenyRe re dr s :: cs) := by
  cases dr with
  | none => rfl
  | some r =>
    cases hr : r != "" <;> cases hsearch : re.search r s <;>
      simp [checkDenyRegex, PValue.truthy, PValue.toStr, specDenyRe, pvOfStr,
        hr, hsearch, checkChain]

/-- The substring scan agrees with the first-hit search over string
elements. -/
theorem denyScan_map_str (s : String) (ds : List String) :
    denyScan s (ds.map .str) = .ok (firstDenyHit ds s) := by
  induction ds with
  | nil => rfl
  | cons sub rest ih =>
    by_cases hc : strContains s sub = true <;>
      simp [denyScan, firstDenyHit, List.find?, hc, ih, firstDenyHit.eq_def]

/-- The `deny_substrings` check is the next link of a check chain. -/
theorem checkDenySubs_chain (s : String) (ds : List String)
    (cs : List (Option String)) :
    checkDenySubs s (.list (ds.map .str)) (checkChain cs)
      = checkChain (specDenySubs ds s :: cs) := by
  have h := denyScan_map_str s ds
  cases hd : firstDenyHit ds s with
  | none => rw [hd] at h; simp [checkDenySubs, h, specDenySubs, hd, checkChain]
  | some sub => rw [hd] at h; simp [checkDenySubs, h, specDenySubs, hd, checkChain]

/-- The `allow_charset` check is the next link of a check chain. -/
theorem checkCharset_chain (re : ReEngine) (s : String) (ac : Option String)
    (cs : List (Option String)) :
    checkCharset re s (pvOfStr ac) (checkChain cs)
      = checkChain (specCharset re ac s :: cs) := by
  cases ac with
  | none => rfl
  | some c =>
    cases hc : c != "" <;> cases hm : re.fullmatch ("^[" ++ c ++ "]+$") s <;>
      simp [checkCharset, PValue.truthy, PValue.toStr, specCharset, pvOfStr,
        hc, hm, checkChain]

/-- The `match_regex` check is the last link of a check chain. -/
theorem checkRegex_chain (re : ReEngine) (s : String) (rx : Option String)
    (cs : List (Option String)) :
    checkRegex re s (pvOfStr rx) (checkChain cs)
      = checkChain (specMatchRe re rx s :: cs) := by
  cases rx with
  | none => rfl
  | some r =>
    cases hr : r != "" <;> cases hm : re.fullmatch r s <;>
      simp [checkRegex, PValue.truthy, PValue.toStr, specMatchRe, pvOfStr,
        hr, hm, checkChain]

/-! Claim theorems. -/

/-- C1: the claim says `validate_value` never raises and converts internal
errors into rejections, in particular on every policy produced by
`load_policy`.  The code contradicts it (and its own tests in
`test_validators.py`): `load_policy` stores typed dataclass params, while
`_validate_string` immediately calls `params.get`, so validating the test
fixture's `safe_filename` against `"hello.txt"` raises `AttributeError`
instead of returning an `(ok, reason)` pair, for every environment. -/
theorem loaded_policy_string_validator_raises (env : Env) :
    (loadPolicyW c1Doc).map
      (fun pol => validateValue env pol "safe_filename" "hello.txt")
    = .ok (.error (.attributeError
        (pyRepr "StringValidatorParams" ++ " object has no attribute " ++ pyRepr "get"))) :=
  rfl

/-- C2: for every string-validator configuration (under the key names
`_validate_string` reads; the claim's `match_regex` check is configured by
the `regex` params key) and every value, the engine normalizes the
coerced string and returns the first failing check of the claim's ordered
list `max_len, min_len, deny_regex, deny_substrings, allow_charset,
match_regex`, with length checks counting code points of the normalized
string. -/
theorem string_validator_check_order (nfc : String → String) (re : ReEngine)
    (ml mn : Option Int) (rx ac dr : Option String) (ds : List String) (v : String) :
    validateString nfc re (mkStringDict ml mn rx ac dr ds) v
      = .ok (firstFailure (specCheckList re ml mn rx ac dr ds (nfc v))) := by
  have hstep :
      validateString nfc re (mkStringDict ml mn rx ac dr ds) v
        = checkMax (nfc v) (pvOfInt ml)
            (checkMin (nfc v) (pvOfInt mn)
              (checkDenyRegex re (nfc v) (pvOfStr dr)
                (checkDenySubs (nfc v) (.list (ds.map .str))
                  (checkCharset re (nfc v) (pvOfStr ac)
                    (checkRegex re (nfc v) (pvOfStr rx) (checkChain [])))))) := rfl
  rw [hstep, checkRegex_chain, checkCharset_chain, checkDenySubs_chain,
      checkDenyRe_chain, checkMin_chain, checkMax_chain, checkChain_eq]
  rfl

/-- C3: the claim says a sink whose `forbid_functions` contains its own
function name always logs a `blocked` event and raises `PolicyViolation`.
The code has no such feature: `SinkDef` declares no `forbid_functions`
field, `_parse_sinks` never reads the key, and `_enforce` performs no
hard-deny check, so the invocation proceeds with no log records and no
exception, for every environment. -/
theorem forbid_functions_ignored (env : Env) :
    (loadPolicyW c3Doc).map
      (fun pol => guardedCall env pol "subprocess.run"
        ["echo HACK; rm -rf /"] ["http_request"] (0 : Nat))
    = .ok (CallOutcome.ok 0 [] ["http_request", "subprocess.run"]) :=
  rfl

/-- C5: validating the NFC-normalized form of a string yields the same
`(ok, reason)` result as validating the string itself, for every
string-validator params object, because `_validate_string` normalizes its
input first and NFC normalization is idempotent. -/
theorem string_validator_nfc_invariant (nfc : String → String) (re : ReEngine)
    (params : Params) (s : String) (hid : ∀ t, nfc (nfc t) = nfc t) :
    validateString nfc re params (nfc s) = validateString nfc re params s := by
  unfold validateString
  rw [hid]

/-- Witness for C5 at a concrete validator, string and (idempotent)
normalization function. -/
theorem string_validator_nfc_invariant_witness :
    (∀ t : String, id (id t) = id t)
    ∧ validateString id wEnv.re
        (mkStringDict (some 2) Option.none Option.none Option.none Option.none [])
        (id "abcd")
      = validateString id wEnv.re
        (mkStringDict (some 2) Option.none Option.none Option.none Option.none [])
        "abcd" :=
  ⟨fun _ => rfl,
   string_validator_nfc_invariant id wEnv.re
     (mkStringDict (some 2) Option.none Option.none Option.none Option.none [])
     "abcd" (fun _ => rfl)⟩

/-- C8: concatenation of a `TaintedStr` with any operand yields the
concatenated content and the union of the operands' tag sets, a plain
operand contributing the empty set (tag sets are `Finset`s: unordered and
de-duplicated). -/
theorem tainted_add_tags_union (a : TaintedStr) (b : StrLike) :
    (a.add b).tags = a.tags ∪ b.tagsOf ∧ (a.add b).value = a.value ++ b.strOf := by
  cases b with
  | tainted t =>
    constructor
    · show a.tags ∪ (a.tags ∪ t.tags) = a.tags ∪ t.tags
      rw [← Finset.union_assoc, Finset.union_self]
    · rfl
  | plain s =>
    constructor
    · show a.tags ∪ a.tags = a.tags ∪ ∅
      rw [Finset.union_self, Finset.union_empty]
    · rfl

/-- C9: after the flow-stack append of `_record_flowpoint`, the last entry
equals the appended label, the length grows by at most one (by zero
exactly when the previous last entry already equalled the label), and the
no-adjacent-duplicates invariant is preserved. -/
theorem flow_append_spec (stack : List String) (x : String) :
    (flowAppend stack x).getLast? = some x
    ∧ (flowAppend stack x).length ≤ stack.length + 1
    ∧ ((flowAppend stack x).length = stack.length ↔ stack.getLast? = some x)
    ∧ (List.Chain' (fun a b => a ≠ b) stack →
        List.Chain' (fun a b => a ≠ b) (flowAppend stack x)) := by
  unfold flowAppend
  by_cases h : stack = [] ∨ stack.getLast? ≠ some x
  · rw [if_pos h]
    refine ⟨List.getLast?_concat _, by simp, ?_, ?_⟩
    · simp only [List.length_append, List.length_cons, List.length_nil]
      constructor
      · intro hlen; omega
      · intro hlast
        rcases h with h | h
        · subst h; simp at hlast
        · exact absurd hlast h
    · intro hch
      rw [List.chain'_append]
      refine ⟨hch, List.chain'_singleton _, ?_⟩
      intro a ha b hb
      have hb' : x = b := by simpa using hb
      subst hb'
      rcases h with h | h
      · subst h; simp at ha
      · intro hax
        subst hax
        exact h (by simpa using ha)
  · rw [if_neg h]
    push_neg at h
    obtain ⟨hne, hlast⟩ := h
    exact ⟨hlast, Nat.le_succ _, by simp [hlast], fun hch => hch⟩

/-- Witness for C9 at a concrete stack whose last entry equals the
appended label. -/
theorem flow_append_spec_witness :
    (flowAppend ["a", "b"] "b").getLast? = some "b"
    ∧ (flowAppend ["a", "b"] "b").length ≤ (["a", "b"] : List String).length + 1
    ∧ ((flowAppend ["a", "b"] "b").length = (["a", "b"] : List String).length ↔
        (["a", "b"] : List String).getLast? = some "b")
    ∧ (List.Chain' (fun a b => a ≠ b) ["a", "b"] →
        List.Chain' (fun a b => a ≠ b) (flowAppend ["a", "b"] "b")) :=
  flow_append_spec ["a", "b"] "b"

/-- The root loop of `_validate_path` computes the first-matching-root
decision: the first configured root (skipping malformed entries) that is a
component-boundary ancestor of the path decides, applying the
`deny_subdirectories` parent check; otherwise the not-under rejection. -/
theorem pathLoop_spec (cwd : List String) (deny : Bool) (path : List String)
    (rawMsg : String) (roots : List PValue) :
    pathLoop cwd deny path rawMsg roots =
      match firstMatchingRoot cwd path roots with
      | some r =>
        if deny && parentOf path != r then
          (false, "subdirectories disallowed under " ++ renderAbs r)
        else (true, "ok")
      | Option.none => (false, "path not under allowed roots: " ++ rawMsg) := by
  induction roots with
  | nil => rfl
  | cons r rest ih =>
    cases r with
    | str rs =>
      cases hres : resolvePath cwd rs with
      | error e => simp [pathLoop, firstMatchingRoot, hres, ih]
      | ok rp =>
        cases hp : lPre rp path with
        | true => simp [pathLoop, firstMatchingRoot, hres, hp]
        | false => simp [pathLoop, firstMatchingRoot, hres, hp, ih]
    | none => simp [pathLoop, firstMatchingRoot, ih]
    | int n => simp [pathLoop, firstMatchingRoot, ih]
    | bool b => simp [pathLoop, firstMatchingRoot, ih]
    | list xs => simp [pathLoop, firstMatchingRoot, ih]

/-- C4 counterexample: with the well-formed non-empty root list `["/r"]`
and `deny_subdirectories` set, the canonical path `/r/a/b` has the
canonical root `/r` as a component-boundary ancestor, yet the validator
rejects it — refuting the claimed acceptance condition as stated. -/
theorem path_deny_subdirectories_cex :
    lPre ["r"] ["r", "a", "b"] = true
    ∧ resolvePath ["home"] "/r" = .ok ["r"]
    ∧ resolvePath ["home"] "/r/a/b" = .ok ["r", "a", "b"]
    ∧ validatePath ["home"] (mkPathDict [.str "/r"] true) "/r/a/b"
        = .ok (false, "subdirectories disallowed under /r") :=
  ⟨rfl, rfl, rfl, rfl⟩

/-- C4 (amended): for a resolvable input path, the path validator accepts
iff the first configured root (in list order, skipping malformed entries)
that is a component-boundary ancestor of the canonical path exists and,
when `deny_subdirectories` is set, equals the canonical path's parent;
and with an empty configured root list (the emptiness test precedes
canonicalization) it rejects with `no allowed roots configured`. -/
theorem path_root_containment_amended (cwd : List String) (roots : List PValue)
    (deny : Bool) (p : String) (canonP : List String)
    (hres : resolvePath cwd p = .ok canonP) (hne : roots ≠ []) :
    (acceptedOf (validatePath cwd (mkPathDict roots deny) p) = true ↔
      ∃ r, firstMatchingRoot cwd canonP roots = some r
        ∧ (deny = true → parentOf canonP = r))
    ∧ validatePath cwd (mkPathDict [] deny) p
        = .ok (false, "no allowed roots configured") := by
  constructor
  · cases roots with
    | nil => exact absurd rfl hne
    | cons r0 rest =>
      have h1 : validatePath cwd (mkPathDict (r0 :: rest) deny) p =
          match resolvePath cwd p with
          | .error e => .ok (false, "path invalid: " ++ e.render)
          | .ok path =>
            .ok (pathLoop cwd deny path (renderPVList (r0 :: rest)) (r0 :: rest)) := rfl
      rw [h1, hres]
      show acceptedOf
          (.ok (pathLoop cwd deny canonP (renderPVList (r0 :: rest)) (r0 :: rest))) = true ↔ _
      rw [pathLoop_spec]
      cases hfm : firstMatchingRoot cwd canonP (r0 :: rest) with
      | none => simp [acceptedOf]
      | some rm =>
        cases deny with
        | false => simp [acceptedOf]
        | true =>
          by_cases hp : parentOf canonP = rm
          · simp [acceptedOf, hp]
          · simp [acceptedOf, hp]
  · have h2 : validatePath cwd (mkPathDict [] deny) p =
        match resolvePath cwd p with
        | .error e => .ok (false, "path invalid: " ++ e.render)
        | .ok _ => .ok (false, "no allowed roots configured") := rfl
    rw [h2, hres]

/-- Witness for C4's amended statement at a concrete root list and path. -/
theorem path_root_containment_amended_witness :
    resolvePath ["home"] "/r/x" = .ok ["r", "x"]
    ∧ ((acceptedOf (validatePath ["home"] (mkPathDict [.str "/r"] false) "/r/x") = true ↔
        ∃ r, firstMatchingRoot ["home"] ["r", "x"] [.str "/r"] = some r
          ∧ (false = true → parentOf ["r", "x"] = r))
      ∧ validatePath ["home"] (mkPathDict [] false) "/r/x"
          = .ok (false, "no allowed roots configured")) :=
  ⟨rfl,
   path_root_containment_amended ["home"] [.str "/r"] false "/r/x" ["r", "x"] rfl
     (List.cons_ne_nil _ _)⟩

/-- Membership characterization of the nested-loop pair order. -/
theorem mem_sinkPairs_iff (require strings : List String) (vid s : String) :
    (vid, s) ∈ sinkPairs require strings ↔ vid ∈ require ∧ s ∈ strings := by
  unfold sinkPairs
  simp [List.mem_flatMap, List.mem_map]

/-- Unfolding of `enforce` when the sink lookup succeeds. -/
theorem enforce_of_sink (env : Env) (policy : Policy) (fqn : String)
    (strings flow0 : List String) (sink : SinkDef)
    (h : getSinkForFunction policy fqn = some sink) :
    enforce env policy fqn strings flow0 =
      match enforcePairs env policy fqn sink (flowAppend flow0 fqn)
          (sinkPairs sink.require strings) [] with
      | .error e => .error e
      | .ok (logs, raised) =>
        .ok { flow := flowAppend flow0 fqn, logs := logs, raised := raised } := by
  unfold enforce
  rw [h]

/-- Unfolding of `enforce` when the sink lookup fails: the call proceeds
with no validation, no logs and no raise. -/
theorem enforce_of_no_sink (env : Env) (policy : Policy) (fqn : String)
    (strings flow0 : List String)
    (h : getSinkForFunction policy fqn = Option.none) :
    enforce env policy fqn strings flow0 =
      .ok { flow := flowAppend flow0 fqn, logs := [], raised := Option.none } := by
  unfold enforce
  rw [h]

/-- The validator loop returns a value (no Python error) when every pair's
validation returns a pair. -/
theorem enforcePairs_all_ok (env : Env) (policy : Policy) (fqn : String)
    (sink : SinkDef) (flowSnap : List String) (pairs : List (String × String)) :
    ∀ logs : List LogRecord,
      (∀ p ∈ pairs, ∃ r, validateValue env policy p.1 p.2 = .ok r) →
      ∃ lr, enforcePairs env policy fqn sink flowSnap pairs logs = .ok lr := by
  induction pairs with
  | nil => exact fun logs _ => ⟨(logs, Option.none), rfl⟩
  | cons q rest ih =>
    intro logs hall
    obtain ⟨vid, s⟩ := q
    obtain ⟨⟨ok, msg⟩, hv⟩ := hall (vid, s) (List.mem_cons_self _ _)
    have hrest : ∀ p ∈ rest, ∃ r, validateValue env policy p.1 p.2 = .ok r :=
      fun p hp => hall p (List.mem_cons_of_mem _ hp)
    cases ok with
    | true =>
      obtain ⟨lr, hlr⟩ := ih logs hrest
      exact ⟨lr, by simp [enforcePairs, hv, hlr]⟩
    | false =>
      by_cases hm : effMode policy sink = ViolationMode.block
      · refine ⟨(logs ++ [{ event := "violation", sink := fqn, validator := some vid
                            msg := msg, mode := (effMode policy sink).value
                            taint_flow := flowSnap }],
                 some (effMessage sink vid msg)), ?_⟩
        simp [enforcePairs, hv, hm]
      · obtain ⟨lr, hlr⟩ := ih
          (logs ++ [{ event := "violation", sink := fqn, validator := some vid
                      msg := msg, mode := (effMode policy sink).value
                      taint_flow := flowSnap }]) hrest
        exact ⟨lr, by simp [enforcePairs, hv, hm, hlr]⟩

/-- In `block` mode, a loop run that raised nothing had every pair pass. -/
theorem enforcePairs_none_all_pass (env : Env) (policy : Policy) (fqn : String)
    (sink : SinkDef) (flowSnap : List String)
    (hmode : effMode policy sink = ViolationMode.block)
    (pairs : List (String × String)) :
    ∀ (logs lout : List LogRecord),
      enforcePairs env policy fqn sink flowSnap pairs logs = .ok (lout, Option.none) →
      ∀ p ∈ pairs, ∃ m, validateValue env policy p.1 p.2 = .ok (true, m) := by
  induction pairs with
  | nil =>
    intro logs lout _ p hp
    exact absurd hp (List.not_mem_nil p)
  | cons q rest ih =>
    intro logs lout henf p hp
    obtain ⟨vid, s⟩ := q
    cases hv : validateValue env policy vid s with
    | error e => simp [enforcePairs, hv] at henf
    | ok r =>
      obtain ⟨ok, msg⟩ := r
      cases ok with
      | false => simp [enforcePairs, hv, hmode] at henf
      | true =>
        simp only [enforcePairs, hv, if_pos] at henf
        rcases List.mem_cons.mp hp with hpe | hpr
        · subst hpe
          exact ⟨msg, hv⟩
        · exact ih logs lout henf p hpr

/-- A raised `PolicyViolation` message comes from a failing pair under
`block` mode, carrying the effective message. -/
theorem enforcePairs_some_inv (env : Env) (policy : Policy) (fqn : String)
    (sink : SinkDef) (flowSnap : List String) (pairs : List (String × String)) :
    ∀ (logs lout : List LogRecord) (m : String),
      enforcePairs env policy fqn sink flowSnap pairs logs = .ok (lout, some m) →
      effMode policy sink = ViolationMode.block
      ∧ ∃ vid s msg, (vid, s) ∈ pairs
          ∧ validateValue env policy vid s = .ok (false, msg)
          ∧ m = effMessage sink vid msg := by
  induction pairs with
  | nil =>
    intro logs lout m henf
    simp [enforcePairs] at henf
  | cons q rest ih =>
    intro logs lout m henf
    obtain ⟨vid, s⟩ := q
    cases hv : validateValue env policy vid s with
    | error e => simp [enforcePairs, hv] at henf
    | ok r =>
      obtain ⟨ok, msg⟩ := r
      cases ok with
      | true =>
        simp only [enforcePairs, hv, if_pos] at henf
        obtain ⟨hb, vid', s', msg', hmem, hv', hm'⟩ := ih logs lout m henf
        exact ⟨hb, vid', s', msg', List.mem_cons_of_mem _ hmem, hv', hm'⟩
      | false =>
        by_cases hb : effMode policy sink = ViolationMode.block
        · simp only [enforcePairs, hv, hb, if_neg, if_pos, Bool.false_eq_true,
            reduceIte] at henf
          simp only [Except.ok.injEq, Prod.mk.injEq, Option.some.injEq] at henf
          exact ⟨hb, vid, s, msg,
            List.mem_cons_self _ _, hv, henf.2.symm⟩
        · simp only [enforcePairs, hv, hb, Bool.false_eq_true, reduceIte,
            if_neg] at henf
          obtain ⟨hb', vid', s', msg', hmem, hv', hm'⟩ := ih _ lout m henf
          exact ⟨hb', vid', s', msg', List.mem_cons_of_mem _ hmem, hv', hm'⟩

/-- The default-mode computation of `_enforce` equals the claim's cascade. -/
theorem defaultModeOf_eq_spec (policy : Policy) :
    defaultModeOf policy = specDefaults policy := by
  unfold defaultModeOf specDefaults
  cases policy.defaultsMode with
  | none => rfl
  | some s =>
    cases he : s == "" with
    | true =>
      simp only [he, reduceIte]
      rfl
    | false =>
      simp only [he, Bool.false_eq_true, reduceIte]

/-- C6: an unknown validator id always yields
`(false, "unknown validator <id>")`, and consequently a sink requiring a
nonexistent id, invoked with at least one extracted string under effective
mode `block` (and with no validator internal error escaping), raises
`PolicyViolation` rather than silently proceeding. -/
theorem unknown_validator_fail_closed (env : Env) (policy : Policy) (fqn : String)
    (strings flow : List String) (sink : SinkDef) (bad : String)
    (h1 : lookupValidator policy bad = Option.none)
    (h2 : getSinkForFunction policy fqn = some sink)
    (h3 : bad ∈ sink.require)
    (h4 : strings ≠ [])
    (h5 : effMode policy sink = ViolationMode.block)
    (h6 : ∀ vid s, vid ∈ sink.require → s ∈ strings →
        ∃ r, validateValue env policy vid s = Except.ok r) :
    (∀ v, validateValue env policy bad v = .ok (false, "unknown validator " ++ bad))
    ∧ ∃ m logs flw, guardedCall env policy fqn strings flow (0 : Nat)
        = CallOutcome.violation m logs flw := by
  have hunk : ∀ v, validateValue env policy bad v
      = .ok (false, "unknown validator " ++ bad) := by
    intro v
    unfold validateValue
    rw [h1]
  refine ⟨hunk, ?_⟩
  obtain ⟨s0, strings', rfl⟩ : ∃ s0 strings', strings = s0 :: strings' := by
    cases strings with
    | nil => exact absurd rfl h4
    | cons a l => exact ⟨a, l, rfl⟩
  have hallp : ∀ p ∈ sinkPairs sink.require (s0 :: strings'),
      ∃ r, validateValue env policy p.1 p.2 = .ok r := by
    intro p hp
    obtain ⟨vid, s⟩ := p
    obtain ⟨hvm, hsm⟩ := (mem_sinkPairs_iff _ _ _ _).mp hp
    exact h6 vid s hvm hsm
  obtain ⟨⟨lout, raised⟩, hep⟩ :=
    enforcePairs_all_ok env policy fqn sink (flowAppend flow fqn)
      (sinkPairs sink.require (s0 :: strings')) [] hallp
  cases raised with
  | none =>
    have hbadmem : (bad, s0) ∈ sinkPairs sink.require (s0 :: strings') :=
      (mem_sinkPairs_iff _ _ _ _).mpr ⟨h3, List.mem_cons_self _ _⟩
    obtain ⟨m, hm⟩ := enforcePairs_none_all_pass env policy fqn sink
      (flowAppend flow fqn) h5 _ [] lout hep (bad, s0) hbadmem
    rw [hunk s0] at hm
    simp at hm
  | some m =>
    refine ⟨m, lout, flowAppend flow fqn, ?_⟩
    unfold guardedCall
    rw [enforce_of_sink env policy fqn (s0 :: strings') flow sink h2, hep]

/-- Witness for C6: a policy with an empty validator table and a sink
requiring the nonexistent id `ghost`, invoked with one string. -/
theorem unknown_validator_fail_closed_witness :
    lookupValidator wPolicyGhost "ghost" = Option.none
    ∧ (∀ v, validateValue wEnv wPolicyGhost "ghost" v
        = .ok (false, "unknown validator " ++ "ghost"))
    ∧ ∃ m logs flw, guardedCall wEnv wPolicyGhost "f" ["x"] [] (0 : Nat)
        = CallOutcome.violation m logs flw := by
  have h := unknown_validator_fail_closed wEnv wPolicyGhost "f" ["x"] []
    { id := some "s1", function := some "f", require := ["ghost"]
      on_violation := Option.none } "ghost" rfl rfl (by decide)
    (by decide) rfl
    (by
      intro vid s hv hs
      have hv' : vid = "ghost" := by simpa using hv
      subst hv'
      exact ⟨(false, "unknown validator " ++ "ghost"), rfl⟩)
  exact ⟨rfl, h.1, h.2⟩

/-- C7: the effective mode equals the claim's cascade (sink override, else
defaults, else `block`, unrecognized defaults falling back to `block`);
under it, an `_enforce` run that raised nothing lets the wrapper return
the underlying result; a raised message implies `block` mode, surfaces as
a `PolicyViolation` with the effective message of a failing pair; and a
non-`block` effective mode never raises (the run only logs and
proceeds). -/
theorem violation_mode_dispatch (env : Env) (policy : Policy) (fqn : String)
    (strings flow : List String) (sink : SinkDef) (underlying : Nat)
    (hs : getSinkForFunction policy fqn = some sink) :
    effMode policy sink = effModeSpec policy sink
    ∧ (∀ out, enforce env policy fqn strings flow = .ok out →
        (out.raised = Option.none →
          guardedCall env policy fqn strings flow underlying
            = CallOutcome.ok underlying out.logs out.flow)
        ∧ (∀ m, out.raised = some m →
            effMode policy sink = ViolationMode.block
            ∧ guardedCall env policy fqn strings flow underlying
                = CallOutcome.violation m out.logs out.flow
            ∧ ∃ vid s msg, (vid, s) ∈ sinkPairs sink.require strings
                ∧ validateValue env policy vid s = .ok (false, msg)
                ∧ m = effMessage sink vid msg))
    ∧ (effMode policy sink ≠ ViolationMode.block →
        ∀ out, enforce env policy fqn strings flow = .ok out →
          out.raised = Option.none) := by
  have hmode : effMode policy sink = effModeSpec policy sink := by
    unfold effMode effModeSpec
    cases hov : sink.on_violation with
    | none => exact defaultModeOf_eq_spec policy
    | some ov =>
      obtain ⟨omode, omsg⟩ := ov
      cases omode with
      | none => exact defaultModeOf_eq_spec policy
      | some m => rfl
  have hsome : ∀ out m, enforce env policy fqn strings flow = .ok out →
      out.raised = some m →
      effMode policy sink = ViolationMode.block
      ∧ guardedCall env policy fqn strings flow underlying
          = CallOutcome.violation m out.logs out.flow
      ∧ ∃ vid s msg, (vid, s) ∈ sinkPairs sink.require strings
          ∧ validateValue env policy vid s = .ok (false, msg)
          ∧ m = effMessage sink vid msg := by
    intro out m henf hr
    have hguard : guardedCall env policy fqn strings flow underlying
        = CallOutcome.violation m out.logs out.flow := by
      unfold guardedCall
      rw [henf]
      show (match out.raised with
            | some m => CallOutcome.violation m out.logs out.flow
            | Option.none => CallOutcome.ok underlying out.logs out.flow) = _
      rw [hr]
    rw [enforce_of_sink env policy fqn strings flow sink hs] at henf
    cases hep : enforcePairs env policy fqn sink (flowAppend flow fqn)
        (sinkPairs sink.require strings) [] with
    | error e => rw [hep] at henf; cases henf
    | ok lr =>
      obtain ⟨lout, raised⟩ := lr
      rw [hep] at henf
      have hout : out = { flow := flowAppend flow fqn, logs := lout, raised := raised } :=
        (Except.ok.injEq _ _).mp henf.symm
      have hraised : raised = some m := by rw [hout] at hr; exact hr
      subst hraised
      obtain ⟨hb, vid, s, msg, hmem, hv, hm⟩ :=
        enforcePairs_some_inv env policy fqn sink (flowAppend flow fqn)
          (sinkPairs sink.require strings) [] lout m hep
      exact ⟨hb, hguard, vid, s, msg, hmem, hv, hm⟩
  refine ⟨hmode, ?_, ?_⟩
  · intro out henf
    constructor
    · intro hr
      unfold guardedCall
      rw [henf]
      show (match out.raised with
            | some m => CallOutcome.violation m out.logs out.flow
            | Option.none => CallOutcome.ok underlying out.logs out.flow) = _
      rw [hr]
    · intro m hr
      exact hsome out m henf hr
  · intro hnb out henf
    cases hr : out.raised with
    | none => rfl
    | some m => exact absurd (hsome out m henf hr).1 hnb

/-- Witness for C7: a sink overriding the mode to `warn` with a failing
validator — the mode cascade picks `warn`, and the guarded call logs and
proceeds. -/
theorem violation_mode_dispatch_witness :
    getSinkForFunction wPolicyWarn "f"
      = some { id := some "s1", function := some "f", require := ["v1"]
               on_violation := some { mode := some ViolationMode.warn
                                      message := Option.none } }
    ∧ effMode wPolicyWarn { id := some "s1", function := some "f", require := ["v1"]
                            on_violation := some { mode := some ViolationMode.warn
                                                   message := Option.none } }
        = effModeSpec wPolicyWarn { id := some "s1", function := some "f"
                                    require := ["v1"]
                                    on_violation := some { mode := some ViolationMode.warn
                                                           message := Option.none } }
    ∧ guardedCall wEnv wPolicyWarn "f" ["abcd"] [] (5 : Nat)
        = CallOutcome.ok 5
            [{ event := "violation", sink := "f", validator := some "v1"
               msg := "length>1", mode := "warn", taint_flow := ["f"] }] ["f"] := by
  have h := violation_mode_dispatch wEnv wPolicyWarn "f" ["abcd"] []
    { id := some "s1", function := some "f", require := ["v1"]
      on_violation := some { mode := some ViolationMode.warn
                             message := Option.none } } 5 rfl
  refine ⟨rfl, h.1, ?_⟩
  have hok := (h.2.1 { flow := ["f"]
                       logs := [{ event := "violation", sink := "f"
                                  validator := some "v1", msg := "length>1"
                                  mode := "warn", taint_flow := ["f"] }]
                       raised := Option.none } rfl).1 rfl
  exact hok

/-- C10: when the policy has a sink for `sqlite3.Cursor.execute` but none
for `sqlite3.Cursor.executemany`, a `GuardedCursor.executemany` call
proceeds unguarded (its distinct fully-qualified name finds no sink) while
the same SQL through `GuardedCursor.execute` is enforced: with a failing
required validator under `block` mode it raises `PolicyViolation`. -/
theorem executemany_distinct_fqn (env : Env) (policy : Policy) (sql : String)
    (flow : List String) (sink : SinkDef) (vid msg : String) (r : Nat)
    (h1 : getSinkForFunction policy "sqlite3.Cursor.execute" = some sink)
    (h2 : ∀ kv ∈ policy.sinks, kv.2.function ≠ some "sqlite3.Cursor.executemany")
    (h3 : sink.require = [vid])
    (h4 : validateValue env policy vid sql = .ok (false, msg))
    (h5 : effMode policy sink = ViolationMode.block) :
    guardedExecutemany env policy sql flow r
      = CallOutcome.ok r [] (flowAppend flow "sqlite3.Cursor.executemany")
    ∧ guardedExecute env policy sql flow r
      = CallOutcome.violation (effMessage sink vid msg)
          [{ event := "violation", sink := "sqlite3.Cursor.execute"
             validator := some vid, msg := msg, mode := ViolationMode.block.value
             taint_flow := flowAppend flow "sqlite3.Cursor.execute" }]
          (flowAppend flow "sqlite3.Cursor.execute") := by
  constructor
  · have hnone : getSinkForFunction policy "sqlite3.Cursor.executemany"
        = Option.none := by
      unfold getSinkForFunction
      rw [List.find?_eq_none.mpr]
      · rfl
      · intro kv hkv
        simpa using h2 kv hkv
    unfold guardedExecutemany guardedCall
    rw [enforce_of_no_sink env policy _ [sql] flow hnone]
  · unfold guardedExecute guardedCall
    rw [enforce_of_sink env policy _ [sql] flow sink h1]
    have hpairs : sinkPairs sink.require [sql] = [(vid, sql)] := by
      rw [h3]
      rfl
    rw [hpairs]
    simp [enforcePairs, h4, h5]

/-- Witness for C10: `wPolicy` guards `execute` only; `executemany` with a
validator-failing SQL string proceeds while `execute` raises. -/
theorem executemany_distinct_fqn_witness :
    validateValue wEnv wPolicy "v1" "DROP TABLE" = .ok (false, "length>1")
    ∧ guardedExecutemany wEnv wPolicy "DROP TABLE" [] (3 : Nat)
        = CallOutcome.ok 3 [] ["sqlite3.Cursor.executemany"]
    ∧ guardedExecute wEnv wPolicy "DROP TABLE" [] (3 : Nat)
        = CallOutcome.violation ("violation " ++ "v1" ++ ": " ++ "length>1")
            [{ event := "violation", sink := "sqlite3.Cursor.execute"
               validator := some "v1", msg := "length>1", mode := "block"
               taint_flow := ["sqlite3.Cursor.execute"] }]
            ["sqlite3.Cursor.execute"] := by
  have h := executemany_distinct_fqn wEnv wPolicy "DROP TABLE" []
    { id := some "s1", function := some "sqlite3.Cursor.execute"
      require := ["v1"], on_violation := Option.none } "v1" "length>1" 3
    rfl (by decide) rfl rfl rfl
  exact ⟨rfl, h.1, h.2⟩

end Sentinel
